import Mathlib

/-
Verification of the PoUW CAPTCHA federated shard-inference widget.

This development is a shallow embedding of the widget's core TypeScript
modules:

  packages/widget/src/ml/shard-engine.ts   (NeuralLayer, ShardInferenceEngine)
  packages/widget/src/core/session.ts      (CaptchaSession)
  packages/widget/src/core/captcha.ts      (PoUWCaptcha.waitForVerification)
  packages/widget/src/utils/crypto.ts      (hashData, modelled abstractly)

Modelling conventions:

* JavaScript numbers are modelled as exact rationals (`ℚ`).  A value slot of
  a `Float32Array` is `Option ℚ`, where `none` models the non-finite values
  (NaN, Infinity) and `undefined` produced by out-of-bounds reads; arithmetic
  on `none` propagates it, exactly as NaN propagates through JS arithmetic.
  Float32 rounding is not modelled: the numeric claims under verification are
  about the index/summation structure of the kernels, which is rounding
  independent, and the repository's own spec states them over exact decimals.
* `Math.exp` and `Math.tanh` (transcendental, irrational) are supplied as an
  explicit `RealOps` parameter; no verified claim depends on their values.
* SHA-256 (`crypto.subtle.digest` inside `hashData`) is supplied as explicit
  function parameters `hashStr` (digest of a string) and `hashTensor` (digest
  of a tensor's raw bytes); the proof-protocol claims are about how the
  digests are combined, not about the digest algorithm itself.
* `JSON.stringify` of a prediction object is modelled by a concrete
  serialization function with the same field order; the exact decimal
  rendering of numbers is abstracted by `toString` on `ℚ`.
* Asynchronous waiting (`setInterval`/`setTimeout`) is modelled by a discrete
  timeline in milliseconds: timer callbacks due at the same instant run in
  registration order, as the HTML timer specification prescribes.
-/

namespace PoUW

/-! ## JavaScript numeric values

`Val` is one slot of a `Float32Array` / one JS number: `none` stands for
NaN / Infinity / `undefined`, which JS arithmetic propagates. -/

abbrev Val := Option ℚ

/-- Addition on JS values: NaN/undefined propagates. -/
def vAdd : Val → Val → Val
  | some a, some b => some (a + b)
  | _, _ => none

/-- Multiplication on JS values: NaN/undefined propagates. -/
def vMul : Val → Val → Val
  | some a, some b => some (a * b)
  | _, _ => none

/-- Subtraction on JS values: NaN/undefined propagates. -/
def vSub : Val → Val → Val
  | some a, some b => some (a - b)
  | _, _ => none

/-- Division on JS values: NaN/undefined propagates; division by zero yields
a non-finite value (`Infinity` or `NaN` in JS), hence `none`. -/
def vDiv : Val → Val → Val
  | some a, some b => if b = 0 then none else some (a / b)
  | _, _ => none

/-- Strict `>` comparison: any comparison against NaN is false in JS. -/
def vGt : Val → Val → Bool
  | some a, some b => decide (b < a)
  | _, _ => false

/-- The ordering used to model the stable-sort comparator
`(a, b) => b.val - a.val` (descending): when a NaN is involved the comparator
returns NaN, which `Array.prototype.sort` treats as 0 (a tie). -/
def vGeTie : Val → Val → Bool
  | some a, some b => decide (b ≤ a)
  | _, _ => true

/-- `Math.max(0, x)`: NaN propagates. -/
def vMax0 : Val → Val
  | some a => some (max 0 a)
  | none => none

/-- Binary `Math.max`: NaN propagates. -/
def vMax : Val → Val → Val
  | some a, some b => some (max a b)
  | _, _ => none

/-- Reading `t[i]` from a `Float32Array`: out of bounds gives `undefined`. -/
def tGet (t : List Val) (i : ℕ) : Val := t.getD i none

/-- The transcendental `Math.*` primitives the activation functions use,
supplied as a parameter (their double-precision values are not rational). -/
structure RealOps where
  exp : ℚ → ℚ
  tanh : ℚ → ℚ

/-- `Math.exp` lifted to JS values. -/
def vExp (ops : RealOps) : Val → Val
  | some a => some (ops.exp a)
  | none => none

/-- A `RealOps` instance used to instantiate witnesses; the claims under
verification never depend on the values of `exp`/`tanh`. -/
def idRealOps : RealOps := ⟨fun q => q, fun q => q⟩

/-! ## Layer data model (types.ts: NeuralLayerConfig, ModelShard, ShardTask) -/

/-- `NeuralLayerConfig` from types.ts; also the per-layer state of the
`NeuralLayer` class, whose constructor copies these fields verbatim. -/
structure NeuralLayerConfig where
  name : String
  type : String
  weights : List Val
  biases : List Val
  inputShape : List ℕ
  outputShape : List ℕ
  activation : String
deriving DecidableEq

/-- `ModelShard` from types.ts (the fields the shard engine reads). -/
structure ModelShard where
  index : ℤ
  name : String
  layerType : String
  inputShape : List ℕ
  outputShape : List ℕ
  layers : List NeuralLayerConfig
deriving DecidableEq

/-- `ShardTask` from types.ts (the fields the shard engine reads; the
`onProgress` callback is modelled by collecting the reported fractions). -/
structure ShardTask where
  taskId : String
  sampleId : String
  modelName : String
  modelVersion : String
  shards : List ModelShard
  inputData : String
  inputShape : List ℕ
  expectedLayers : ℕ
  difficulty : String
  expectedTimeMs : ℕ
  labels : List String

/-! ## Tensor layer executor (shard-engine.ts: NeuralLayer) -/

/-- `NeuralLayer.denseForward`: trailing dims of the declared shapes give the
sizes; `output[o] = biases[o] + Σ_i input[i] * weights[o*inputSize + i]`.
No shape validation is performed: out-of-range reads give `undefined`,
which contaminates the sum as NaN. -/
def denseForward (L : NeuralLayerConfig) (input : List Val) : List Val :=
  let inputSize := L.inputShape.getLastD 0
  let outputSize := L.outputShape.getLastD 0
  (List.range outputSize).map fun o =>
    (List.range inputSize).foldl
      (fun sum i => vAdd sum (vMul (tGet input i) (tGet L.weights (o * inputSize + i))))
      (tGet L.biases o)

/-- `NeuralLayer.conv2dForward`: square kernel, stride 1, no padding;
out-of-range source taps are skipped (not zero-padded).  `Math.sqrt` of the
inferred kernel area is modelled by `Nat.sqrt` (the engine's shard format
always yields perfect-square kernel areas). -/
def conv2dForward (L : NeuralLayerConfig) (input : List Val) : List Val :=
  let batch := L.inputShape.getD 0 0
  let inHeight := L.inputShape.getD 1 0
  let inWidth := L.inputShape.getD 2 0
  let inChannels := L.inputShape.getD 3 0
  let outHeight := L.outputShape.getD 1 0
  let outWidth := L.outputShape.getD 2 0
  let outChannels := L.outputShape.getD 3 0
  let kernelSize := Nat.sqrt (L.weights.length / (outChannels * inChannels))
  (List.range (batch * outHeight * outWidth * outChannels)).map fun idx =>
    let oc := idx % outChannels
    let ow := idx / outChannels % outWidth
    let oh := idx / (outChannels * outWidth) % outHeight
    let b := idx / (outChannels * outWidth * outHeight)
    (List.range inChannels).foldl (fun s ic =>
      (List.range kernelSize).foldl (fun s kh =>
        (List.range kernelSize).foldl (fun s kw =>
          let ih := oh + kh
          let iw := ow + kw
          if ih < inHeight ∧ iw < inWidth then
            vAdd s (vMul
              (tGet input (((b * inHeight + ih) * inWidth + iw) * inChannels + ic))
              (tGet L.weights (((oc * inChannels + ic) * kernelSize + kh) * kernelSize + kw)))
          else s) s) s)
      (tGet L.biases oc)

/-- `NeuralLayer.maxPoolForward`: fixed 2×2 window, stride 2.  The running
maximum starts at `-Infinity`, so it equals the fold of `Math.max` over the
four window reads starting from the first. -/
def maxPoolForward (L : NeuralLayerConfig) (input : List Val) : List Val :=
  let batch := L.inputShape.getD 0 0
  let inHeight := L.inputShape.getD 1 0
  let inWidth := L.inputShape.getD 2 0
  let channels := L.inputShape.getD 3 0
  let outHeight := inHeight / 2
  let outWidth := inWidth / 2
  (List.range (batch * outHeight * outWidth * channels)).map fun idx =>
    let c := idx % channels
    let ow := idx / channels % outWidth
    let oh := idx / (channels * outWidth) % outHeight
    let b := idx / (channels * outWidth * outHeight)
    let rd := fun ph pw => tGet input (((b * inHeight + (2 * oh + ph)) * inWidth + (2 * ow + pw)) * channels + c)
    vMax (vMax (vMax (rd 0 0) (rd 0 1)) (rd 1 0)) (rd 1 1)

/-- `NeuralLayer.softmax`: numerically stabilized softmax (subtract the
running maximum, exponentiate, normalize by the sum of exponentials). -/
def softmax (ops : RealOps) (data : List Val) : List Val :=
  let maxVal := (data.drop 1).foldl (fun mv x => if vGt x mv then x else mv) (tGet data 0)
  let expData := data.map fun x => vExp ops (vSub x maxVal)
  let sumExp := expData.foldl vAdd (some 0)
  expData.map fun e => vDiv e sumExp

/-- `Math.sigmoid` body `1 / (1 + Math.exp(-x))` on a JS value. -/
def vSigmoid (ops : RealOps) : Val → Val
  | some q => some (1 / (1 + ops.exp (-q)))
  | none => none

/-- `Math.tanh` on a JS value. -/
def vTanh (ops : RealOps) : Val → Val
  | some q => some (ops.tanh q)
  | none => none

/-- `NeuralLayer.applyActivation`: the `switch` on the activation string;
`linear` and any unknown string fall through to the identity. -/
def applyActivation (ops : RealOps) (activation : String) (data : List Val) : List Val :=
  if activation = "relu" then data.map vMax0
  else if activation = "softmax" then softmax ops data
  else if activation = "sigmoid" then data.map (vSigmoid ops)
  else if activation = "tanh" then data.map (vTanh ops)
  else data

/-- The `switch (this.type)` of `NeuralLayer.forward`: pick the kernel, or
throw on an unsupported layer type. -/
def forwardRaw (L : NeuralLayerConfig) (input : List Val) : Except String (List Val) :=
  if L.type = "conv2d" then Except.ok (conv2dForward L input)
  else if L.type = "dense" ∨ L.type = "fully_connected" then Except.ok (denseForward L input)
  else if L.type = "maxpool2d" then Except.ok (maxPoolForward L input)
  else if L.type = "flatten" then Except.ok input
  else Except.error ("Unsupported layer type: " ++ L.type)

/-- `NeuralLayer.forward`: dispatch on the layer type, then apply the
activation to the kernel's output. -/
def forward (ops : RealOps) (L : NeuralLayerConfig) (input : List Val) :
    Except String (List Val) :=
  (forwardRaw L input).map (applyActivation ops L.activation)

/-! ## Prediction (shard-engine.ts: generatePrediction) -/

/-- One entry of `Prediction.topK`. -/
structure TopKEntry where
  label : String
  confidence : Val
deriving DecidableEq

/-- `Prediction` from types.ts (the optional `rawOutput` field is never set
by the shard engine). -/
structure Prediction where
  label : String
  confidence : Val
  topK : List TopKEntry
deriving DecidableEq

/-- Stable insertion of `x` after every element `y` with `le y x` — the
placement a stable sort gives the latest-scanned element. -/
def stableInsert (le : α → α → Bool) (x : α) : List α → List α
  | [] => [x]
  | y :: ys => if le y x then y :: stableInsert le x ys else x :: y :: ys

/-- `Array.prototype.sort` (stable, per ES2019) under a total comparator:
modelled as the stable insertion sort, which any stable sort equals. -/
def stableSort (le : α → α → Bool) (l : List α) : List α :=
  l.foldl (fun acc x => stableInsert le x acc) []

/-- `labels[idx] || class_<idx>`: a missing or empty label string is falsy. -/
def labelOr (labels : List String) (idx : ℕ) : String :=
  let l := labels.getD idx ""
  if l = "" then "class_" ++ toString idx else l

/-- `Math.round(v * 1000) / 1000` (JS rounds half toward `+∞`, as does
Mathlib's `round` on `ℚ`); NaN propagates. -/
def vRound3 : Val → Val
  | some q => some ((round (q * 1000) : ℤ) / 1000)
  | none => none

/-- `ShardInferenceEngine.generatePrediction`: arg-max (first occurrence
wins), then the top-5 entries of the stable descending sort. -/
def generatePrediction (output : List Val) (labels : List String) : Prediction :=
  let step := fun (acc : ℕ × Val) i => if vGt (tGet output i) acc.2 then (i, tGet output i) else acc
  let am := (List.range' 1 (output.length - 1)).foldl step (0, tGet output 0)
  let entries := (List.range output.length).map fun i => (tGet output i, i)
  let sorted := stableSort (fun a b => vGeTie a.1 b.1) entries
  let topEntries := sorted.take (min 5 output.length)
  let topK := topEntries.map fun e => TopKEntry.mk (labelOr labels e.2) (vRound3 e.1)
  { label := labelOr labels am.1, confidence := vRound3 am.2, topK := topK }

/-! ## Proof generator (shard-engine.ts: generateProof; crypto.ts: hashData) -/

/-- `InferenceProof` from types.ts. -/
structure InferenceProof where
  taskId : String
  sampleId : String
  layerCount : ℕ
  outputHashes : List String
  predictionHash : String
  proofHash : String
  timestamp : ℕ
deriving DecidableEq

/-- `JSON.stringify` of a number slot: `NaN` serializes to `null`; the exact
decimal rendering of a finite number is abstracted by `toString` on `ℚ`. -/
def jsonNum : Val → String
  | some q => toString q
  | none => "null"

/-- `JSON.stringify` of a string (escaping of special characters elided; the
claims under verification do not depend on it). -/
def jsonStr (s : String) : String := "\"" ++ s ++ "\""

/-- `JSON.stringify` of one `topK` entry, field order as constructed. -/
def serializeTopK (e : TopKEntry) : String :=
  "\x7b\"label\":" ++ jsonStr e.label ++ ",\"confidence\":" ++ jsonNum e.confidence ++ "\x7d"

/-- `JSON.stringify(prediction)`: field order `label`, `confidence`, `topK`
as the object is constructed in `generatePrediction`. -/
def serializePrediction (p : Prediction) : String :=
  "\x7b\"label\":" ++ jsonStr p.label ++ ",\"confidence\":" ++ jsonNum p.confidence ++
    ",\"topK\":[" ++ String.intercalate "," (p.topK.map serializeTopK) ++ "]\x7d"

/-- The mutable state of a `ShardInferenceEngine` instance (its `config` is
only used for debug logging and is not modelled). -/
structure ShardInferenceEngine where
  layers : List NeuralLayerConfig

/-- A freshly constructed engine (`new ShardInferenceEngine(config)`). -/
def ShardInferenceEngine.fresh : ShardInferenceEngine := ⟨[]⟩

/-- `loadShards`: flatten every shard's layers, in the order the `shards`
array lists them (no reordering is performed). -/
def loadShardsLayers (shards : List ModelShard) : List NeuralLayerConfig :=
  shards.foldl (fun acc sh => acc ++ sh.layers) []

/-- `ShardInferenceEngine.loadShards`. -/
def ShardInferenceEngine.loadShards (_e : ShardInferenceEngine)
    (shards : List ModelShard) : ShardInferenceEngine :=
  ⟨loadShardsLayers shards⟩

/-- `ShardInferenceEngine.generateProof`.  `hashStr`/`hashTensor` stand for
`hashData` (SHA-256) on a string and on a tensor's raw bytes; `now` is
`Date.now()`.  The method reads no engine state: the `_e` parameter is
unused, exactly as in the source. -/
def ShardInferenceEngine.generateProof (hashStr : String → String)
    (hashTensor : List Val → String) (_e : ShardInferenceEngine)
    (taskId sampleId : String) (expectedLayers : ℕ)
    (layerOutputs : List (List Val)) (prediction : Prediction) (now : ℕ) :
    InferenceProof :=
  let outputHashes := layerOutputs.foldl (fun acc output => acc ++ [hashTensor output]) []
  let proofData := String.intercalate ":"
    ([taskId, sampleId, toString expectedLayers] ++ outputHashes ++ [serializePrediction prediction])
  { taskId := taskId
    sampleId := sampleId
    layerCount := layerOutputs.length
    outputHashes := outputHashes
    predictionHash := hashStr (serializePrediction prediction)
    proofHash := hashStr proofData
    timestamp := now }

/-! ## Input decoding (shard-engine.ts: decodeInput) -/

/-- The suffix following the rightmost occurrence of the marker `m`, if
any occurrence exists. -/
def afterLastMarker (m : List Char) : List Char → Option (List Char)
  | [] => none
  | c :: rest =>
      match afterLastMarker m rest with
      | some suffix => some suffix
      | none => if m.isPrefixOf (c :: rest) then some ((c :: rest).drop m.length) else none

/-- `data.replace(/^data:.*;base64,/, '')`: when the string starts with
`data:`, the greedy `.*` consumes through the last `;base64,` marker
(`afterLastMarker` finds the rightmost occurrence); the regex's "`.` does
not match a newline" restriction is not modelled (the payloads are
single-line base64). -/
def stripDataPrefix (s : String) : String :=
  if "data:".data.isPrefixOf s.data then
    match afterLastMarker ";base64,".data s.data with
    | some suffix => String.mk suffix
    | none => s
  else s

/-- ASCII whitespace, which `atob`'s forgiving-base64 removes first. -/
def isB64Ws (c : Char) : Bool :=
  c = ' ' ∨ c = '\t' ∨ c = '\n' ∨ c = '\x0d' ∨ c = '\x0c'

/-- The base64 alphabet value of a character. -/
def b64Val (c : Char) : Option ℕ :=
  if 'A' ≤ c ∧ c ≤ 'Z' then some (c.toNat - 65)
  else if 'a' ≤ c ∧ c ≤ 'z' then some (c.toNat - 97 + 26)
  else if '0' ≤ c ∧ c ≤ '9' then some (c.toNat - 48 + 52)
  else if c = '+' then some 62
  else if c = '/' then some 63
  else none

/-- Reassemble 6-bit groups into bytes: four groups give three bytes, a
trailing group of three gives two, of two gives one, of one is invalid. -/
def b64Quanta : List ℕ → Except String (List ℕ)
  | [] => Except.ok []
  | a :: b :: c :: d :: rest => do
      let tail ← b64Quanta rest
      Except.ok ([a * 4 + b / 16, b % 16 * 16 + c / 4, c % 4 * 64 + d] ++ tail)
  | [a, b, c] => Except.ok [a * 4 + b / 16, b % 16 * 16 + c / 4]
  | [a, b] => Except.ok [a * 4 + b / 16]
  | [_] => Except.error "InvalidCharacterError"

/-- `atob`: WHATWG forgiving-base64 decode to a byte list — strip ASCII
whitespace, strip up to two `=` padding characters when the length is a
multiple of four, reject other malformed inputs with `InvalidCharacterError`
(a thrown `DOMException`). -/
def atobModel (s : String) : Except String (List ℕ) := do
  let cs := s.data.filter fun c => ¬ isB64Ws c
  let cs := if cs.length % 4 = 0 then
      match cs.reverse with
      | '=' :: '=' :: rest => rest.reverse
      | '=' :: rest => rest.reverse
      | _ => cs
    else cs
  if cs.length % 4 = 1 then Except.error "InvalidCharacterError"
  else do
    let vals ← cs.mapM fun c =>
      match b64Val c with
      | some v => Except.ok v
      | none => Except.error "InvalidCharacterError"
    b64Quanta vals

/-- Group a byte list into little-endian 32-bit words (the view
`new Float32Array(bytes.buffer)` takes of the byte buffer); a trailing
group of fewer than four bytes yields no word. -/
def bytesToWords : List ℕ → List ℕ
  | b0 :: b1 :: b2 :: b3 :: rest =>
      (b0 + 256 * b1 + 65536 * b2 + 16777216 * b3) :: bytesToWords rest
  | [] => []
  | [_] => []
  | [_, _] => []
  | [_, _, _] => []

/-- The rational value of an IEEE-754 binary32 bit pattern; exponent 255
(Infinity / NaN) is outside the rational model and gives `none`. -/
def f32FromBits (w : ℕ) : Val :=
  let w := w % 2 ^ 32
  let sign : ℚ := if w / 2 ^ 31 = 1 then -1 else 1
  let e : ℕ := w / 2 ^ 23 % 2 ^ 8
  let m : ℕ := w % 2 ^ 23
  if e = 255 then none
  else if e = 0 then some (sign * (m : ℚ) * ((1 : ℚ) / 2 ^ 149))
  else some (sign * (2 ^ 23 + (m : ℚ)) * (2 : ℚ) ^ ((e : ℤ) - 150))

/-- `ShardInferenceEngine.decodeInput`: strip an optional data-URL prefix,
base64-decode, and reinterpret the raw bytes as 32-bit floats.  The declared
`_shape` parameter is never read.  `new Float32Array(bytes.buffer)` throws a
`RangeError` when the byte length is not a multiple of four. -/
def decodeInput (data : String) (_shape : List ℕ) : Except String (List Val) := do
  let base64Data := stripDataPrefix data
  let bytes ← atobModel base64Data
  if bytes.length % 4 = 0 then Except.ok ((bytesToWords bytes).map f32FromBits)
  else Except.error "RangeError"

/-! ## Shard runner (shard-engine.ts: executeShards) -/

/-- The layer-execution loop of `executeShards`: run the layers in order,
feeding each output to the next layer, collecting every output; after layer
`i` completes, report progress `(i+1)/total` (the `onProgress` callback).
A layer failure aborts the whole task. -/
def execLayersLoop (ops : RealOps) (total : ℕ) :
    List NeuralLayerConfig → ℕ → List Val →
    Except String (List (List Val) × List ℚ)
  | [], _, _ => Except.ok ([], [])
  | L :: rest, i, current =>
      match forward ops L current with
      | Except.error err => Except.error err
      | Except.ok output =>
          match execLayersLoop ops total rest (i + 1) output with
          | Except.error err => Except.error err
          | Except.ok (outs, reports) =>
              Except.ok (output :: outs, ((i : ℚ) + 1) / (total : ℚ) :: reports)

/-- `ShardExecutionResult` (timing fields are wall-clock measurements and are
not modelled); `progressReports` records the fractions passed to
`task.onProgress`, in order. -/
structure ShardExecutionResult where
  layerOutputs : List (List Val)
  prediction : Prediction
  proof : InferenceProof
  progressReports : List ℚ

/-- `ShardInferenceEngine.executeShards`: load the shards, decode the input,
execute all layers sequentially, derive the prediction from the final output
(the decoded input when there are no layers), and generate the proof. -/
def ShardInferenceEngine.executeShards (ops : RealOps)
    (hashStr : String → String) (hashTensor : List Val → String)
    (e : ShardInferenceEngine) (task : ShardTask) (now : ℕ) :
    Except String ShardExecutionResult :=
  let e := e.loadShards task.shards
  match decodeInput task.inputData task.inputShape with
  | Except.error err => Except.error err
  | Except.ok input =>
      match execLayersLoop ops e.layers.length e.layers 0 input with
      | Except.error err => Except.error err
      | Except.ok (layerOutputs, reports) =>
          let finalOutput := layerOutputs.getLastD input
          let prediction := generatePrediction finalOutput task.labels
          let proof := ShardInferenceEngine.generateProof hashStr hashTensor e
            task.taskId task.sampleId task.expectedLayers layerOutputs prediction now
          Except.ok
            { layerOutputs := layerOutputs
              prediction := prediction
              proof := proof
              progressReports := reports }

/-! ## Session state machine (session.ts: CaptchaSession) -/

/-- `WidgetState` from types.ts. -/
inductive WidgetState
  | idle
  | loading
  | processing
  | verifying
  | success
  | error
deriving DecidableEq

/-- A state-change listener: `.error e` models the callback throwing `e`. -/
abbrev StateListener := WidgetState → Except String Unit

/-- The observable state of a `CaptchaSession` (readonly identity fields plus
the mutable `_state`, `_captchaToken`, `_error` and the listener set;
listeners are kept in subscription order, as a JS `Set` iterates). -/
structure CaptchaSession where
  sessionId : String
  challengeToken : String
  expiresAt : ℤ
  state : WidgetState
  captchaToken : Option String
  lastError : Option String
  stateListeners : List StateListener

/-- `CaptchaSession.isCompleted`:
`this._state === 'success' && this._captchaToken !== null`. -/
def isCompleted (s : CaptchaSession) : Bool :=
  decide (s.state = WidgetState.success) && s.captchaToken.isSome

/-- `CaptchaSession.getTimeRemaining`:
`Math.max(0, this.expiresAt.getTime() - Date.now())`. -/
def getTimeRemaining (s : CaptchaSession) (now : ℤ) : ℤ :=
  max 0 (s.expiresAt - now)

/-- What one listener call leaves behind: `none` if the callback returned,
`some e` if it threw and the `catch` block logged `e` via `console.error`. -/
def listenerLogEntry : Except String Unit → Option String
  | Except.ok _ => none
  | Except.error e => some e

/-- `CaptchaSession.notifyStateChange`: call every listener in subscription
order; a throwing listener is caught and logged, and iteration continues with
the remaining listeners.  The returned list is the console log, one entry per
listener; the function is total — no listener exception propagates. -/
def notifyStateChange : List StateListener → WidgetState → List (Option String)
  | [], _ => []
  | l :: rest, st => listenerLogEntry (l st) :: notifyStateChange rest st

/-- The `state` setter: on an actual change, update `_state` first, then
notify the listeners with the new state; a no-op when the state is equal.
Returns the updated session and the console log of the notification round. -/
def setState (s : CaptchaSession) (newState : WidgetState) :
    CaptchaSession × List (Option String) :=
  if s.state ≠ newState then
    let s' := { s with state := newState }
    (s', notifyStateChange s'.stateListeners s'.state)
  else (s, [])

/-! ## Adjudication wait (captcha.ts: waitForVerification)

The wait is a promise settled by the first of: a `setInterval(·, 100)` poll
observing completion / session error / expiry, or a `setTimeout` scheduled
for `this.session?.getTimeRemaining() || 60000` milliseconds.  Time is
measured in whole milliseconds from the moment waiting began; timers due at
the same instant run in registration order, so the poll (registered first)
runs before the timeout. -/

/-- The session's dynamics as the wait loop observes them, sampled `t`
milliseconds after waiting began.  Expiry is determined by the remaining
time-to-expiry at the start: `isExpired()` at time `t` holds iff
`remainingAtStart ≤ t`. -/
structure WaitEnv where
  remainingAtStart : ℕ
  completedAt : ℕ → Bool
  errorAt : ℕ → Bool

/-- `isExpired()` sampled `t` milliseconds after waiting began. -/
def WaitEnv.expiredAt (env : WaitEnv) (t : ℕ) : Bool :=
  env.remainingAtStart ≤ t

/-- How the wait promise settles. -/
inductive WaitOutcome
  | resolvedSuccess
  | rejectedSessionError
  | rejectedSessionExpired
  | rejectedVerificationTimeout
deriving DecidableEq

/-- One `setInterval` callback at time `t`: resolve on completion, else
reject on session error, else reject `SESSION_EXPIRED` on expiry (a promise
settles at most once, so the first matching branch is the outcome). -/
def pollCheck (env : WaitEnv) (t : ℕ) : Option WaitOutcome :=
  if env.completedAt t then some WaitOutcome.resolvedSuccess
  else if env.errorAt t then some WaitOutcome.rejectedSessionError
  else if env.expiredAt t then some WaitOutcome.rejectedSessionExpired
  else none

/-- The `setTimeout` delay: `this.session?.getTimeRemaining() || 60000` —
a zero remaining time is falsy, so it falls back to 60000 ms. -/
def timeoutDelay (env : WaitEnv) : ℕ :=
  if env.remainingAtStart = 0 then 60000 else env.remainingAtStart

/-- The first poll that settles the promise, with its time. -/
def firstSettle (env : WaitEnv) : List ℕ → Option (ℕ × WaitOutcome)
  | [] => none
  | t :: ts =>
      match pollCheck env t with
      | some o => some (t, o)
      | none => firstSettle env ts

/-- The settlement of the `waitForVerification` promise: polls run at
100, 200, … up to and including the timeout's due time (the timeout callback
clears the interval); if no poll settled, the timeout callback rejects with
`TIMEOUT_ERROR` (`Verification timeout`) unless the session is completed at
that instant — in which case nothing ever settles the promise (`none`). -/
def waitForVerificationOutcome (env : WaitEnv) : Option (ℕ × WaitOutcome) :=
  let d := timeoutDelay env
  let pollTimes := (List.range (d / 100)).map fun k => 100 * (k + 1)
  match firstSettle env pollTimes with
  | some r => some r
  | none =>
      if env.completedAt d then none
      else some (d, WaitOutcome.rejectedVerificationTimeout)

/-! ## Spec-side reference definitions and concrete instances -/

/-- Modelled from the spec: "flatten all shards' layers (sorted by shard
`index`) into one ordered layer sequence" — flattening after a stable sort
of the shards by ascending `index`.  This is the specification's description
of `loadShards`, stated for comparison with `loadShardsLayers`. -/
def flattenShardsSortedSpec (shards : List ModelShard) : List NeuralLayerConfig :=
  (stableSort (fun a b => decide (a.index ≤ b.index)) shards).foldl
    (fun acc sh => acc ++ sh.layers) []

/-- The progress fractions an `N`-layer execution reports, `(i+1)/N` for
`i = 0 … N-1`. -/
def progressList (N : ℕ) : List ℚ :=
  (List.range N).map fun (i : ℕ) => ((i : ℚ) + 1) / (N : ℚ)

/-- The dense layer of the spec's dense-correctness test: 2×4 weights
`[0.1 … 0.8]`, biases `[0.1, 0.1]`, linear activation. -/
def exDenseLayer : NeuralLayerConfig :=
  { name := "dense_1", type := "dense",
    weights := [some (1/10), some (2/10), some (3/10), some (4/10),
                some (5/10), some (6/10), some (7/10), some (8/10)],
    biases := [some (1/10), some (1/10)],
    inputShape := [1, 4], outputShape := [1, 2], activation := "linear" }

/-- The rational weights of `exDenseLayer`. -/
def exDenseWeights : List ℚ := [1/10, 2/10, 3/10, 4/10, 5/10, 6/10, 7/10, 8/10]

/-- The rational biases of `exDenseLayer`. -/
def exDenseBiases : List ℚ := [1/10, 1/10]

/-- The input `[1, 2, 3, 4]` of the spec's dense-correctness test. -/
def exDenseInput : List ℚ := [1, 2, 3, 4]

/-- A dense layer whose weight length (1 ≠ 2·2) and bias length (0 ≠ 2)
both violate the declared shapes. -/
def badDenseLayer : NeuralLayerConfig :=
  { name := "bad", type := "dense", weights := [some 1], biases := [],
    inputShape := [1, 2], outputShape := [1, 2], activation := "linear" }

/-- A one-layer flatten configuration named "A". -/
def layerCfgA : NeuralLayerConfig :=
  { name := "A", type := "flatten", weights := [], biases := [],
    inputShape := [1, 2], outputShape := [1, 2], activation := "linear" }

/-- A one-layer flatten configuration named "B". -/
def layerCfgB : NeuralLayerConfig :=
  { name := "B", type := "flatten", weights := [], biases := [],
    inputShape := [1, 2], outputShape := [1, 2], activation := "linear" }

/-- A shard with index 0 holding `layerCfgA`. -/
def shardA : ModelShard :=
  { index := 0, name := "shard0", layerType := "flatten",
    inputShape := [1, 2], outputShape := [1, 2], layers := [layerCfgA] }

/-- A shard with index 1 holding `layerCfgB`. -/
def shardB : ModelShard :=
  { index := 1, name := "shard1", layerType := "flatten",
    inputShape := [1, 2], outputShape := [1, 2], layers := [layerCfgB] }

/-- A single-shard, single-dense-layer task over a four-zero-byte input
(`"AAAAAA=="` decodes to the 32-bit float 0). -/
def task0 : ShardTask :=
  { taskId := "t0", sampleId := "s0", modelName := "m", modelVersion := "1",
    shards := [{ index := 0, name := "sh0", layerType := "dense",
                 inputShape := [1, 1], outputShape := [1, 1],
                 layers := [{ name := "l0", type := "dense",
                              weights := [some 1], biases := [some 0],
                              inputShape := [1, 1], outputShape := [1, 1],
                              activation := "linear" }] }],
    inputData := "AAAAAA==", inputShape := [1, 1], expectedLayers := 1,
    difficulty := "easy", expectedTimeMs := 10, labels := ["zero"] }

/-- A listener that returns normally. -/
def okListener : StateListener := fun _ => Except.ok ()

/-- A listener that throws `"boom"`. -/
def boomListener : StateListener := fun _ => Except.error "boom"

/-- An idle session with three listeners, the middle one throwing. -/
def sessionEx : CaptchaSession :=
  { sessionId := "sess", challengeToken := "chal", expiresAt := 1000,
    state := WidgetState.idle, captchaToken := none, lastError := none,
    stateListeners := [okListener, boomListener, okListener] }

/-- A wait whose session is already expired when waiting begins: the
remaining time-to-expiry is 0, and the session never completes nor errors. -/
def envZeroRemaining : WaitEnv :=
  { remainingAtStart := 0, completedAt := fun _ => false, errorAt := fun _ => false }

/-- A wait with 150 ms to expiry whose session never completes nor errors. -/
def envRemaining150 : WaitEnv :=
  { remainingAtStart := 150, completedAt := fun _ => false, errorAt := fun _ => false }

/-! ## Helper lemmas -/

/-- The push-loop that accumulates `f x` for each `x` is `map`. -/
theorem foldl_push_eq_map (f : α → β) :
    ∀ (l : List α) (acc : List β),
      l.foldl (fun acc x => acc ++ [f x]) acc = acc ++ l.map f
  | [], acc => by simp
  | x :: xs, acc => by simp [foldl_push_eq_map f xs]

/-! ## Claims -/

/-- C1: the proof hash is a deterministic function of
`(taskId, sampleId, expectedLayers, layerOutputs, prediction)` alone — it
does not depend on the engine instance (fresh or not) nor on the invocation
time, so repeated invocations and fresh instances agree. -/
theorem generateProof_deterministic (hashStr : String → String)
    (hashTensor : List Val → String) (e₁ e₂ : ShardInferenceEngine)
    (taskId sampleId : String) (expectedLayers : ℕ)
    (layerOutputs : List (List Val)) (prediction : Prediction)
    (now₁ now₂ : ℕ) :
    (ShardInferenceEngine.generateProof hashStr hashTensor e₁ taskId sampleId
        expectedLayers layerOutputs prediction now₁).proofHash =
    (ShardInferenceEngine.generateProof hashStr hashTensor e₂ taskId sampleId
        expectedLayers layerOutputs prediction now₂).proofHash :=
  rfl

/-- C5: `proofHash` is the digest of the concatenation of `taskId`,
`sampleId`, `expectedLayers` in decimal, all per-layer output digests in
execution order, and the canonical serialization of the prediction, joined
with the fixed `":"` delimiter; `outputHashes` holds exactly one digest per
executed layer, in order. -/
theorem generateProof_structure (hashStr : String → String)
    (hashTensor : List Val → String) (e : ShardInferenceEngine)
    (taskId sampleId : String) (expectedLayers : ℕ)
    (layerOutputs : List (List Val)) (prediction : Prediction) (now : ℕ) :
    (ShardInferenceEngine.generateProof hashStr hashTensor e taskId sampleId
        expectedLayers layerOutputs prediction now).outputHashes =
      layerOutputs.map hashTensor ∧
    (ShardInferenceEngine.generateProof hashStr hashTensor e taskId sampleId
        expectedLayers layerOutputs prediction now).proofHash =
      hashStr (String.intercalate ":"
        ([taskId, sampleId, toString expectedLayers] ++
          layerOutputs.map hashTensor ++ [serializePrediction prediction])) := by
  constructor
  · simp [ShardInferenceEngine.generateProof, foldl_push_eq_map]
  · simp [ShardInferenceEngine.generateProof, foldl_push_eq_map]

/-- C6: a session is completed iff its state is `success` and a captcha
token is present; in particular `success` with a null token is not
completed. -/
theorem isCompleted_iff (s : CaptchaSession) :
    isCompleted s = true ↔
      s.state = WidgetState.success ∧ s.captchaToken.isSome = true := by
  simp [isCompleted]

/-- Reading an all-finite tensor in bounds gives the underlying rational. -/
theorem tGet_map_some (l : List ℚ) (i : ℕ) (h : i < l.length) :
    tGet (l.map some) i = some (l.getD i 0) := by
  simp [tGet, List.getD_eq_getElem?_getD, List.getElem?_eq_getElem h,
    List.getD_eq_getElem?_getD]

/-- The accumulation loop of `denseForward` over all-finite values is the
finite sum. -/
theorem foldl_vAdd_some (a b : ℕ → Val) (g : ℕ → ℚ) (init : ℚ) :
    ∀ n, (∀ i < n, vMul (a i) (b i) = some (g i)) →
      (List.range n).foldl (fun s i => vAdd s (vMul (a i) (b i))) (some init) =
        some (init + ∑ i ∈ Finset.range n, g i)
  | 0, _ => by simp
  | n + 1, h => by
      rw [List.range_succ, List.foldl_append,
        foldl_vAdd_some a b g init n fun i hi => h i (Nat.lt_succ_of_lt hi)]
      simp [h n (Nat.lt_succ_self n), vAdd, Finset.sum_range_succ, add_assoc]

/-- C2: for a dense layer whose weight and bias lengths agree with the
declared trailing dimensions, the pre-activation output at index `o` is
`bias[o] + Σ_i input[i] · weight[o·inputSize + i]`. -/
theorem denseForward_formula (nm ty act : String) (ish osh : List ℕ)
    (ws bs inp : List ℚ)
    (hw : ws.length = ish.getLastD 0 * osh.getLastD 0)
    (hb : osh.getLastD 0 ≤ bs.length)
    (hi : ish.getLastD 0 ≤ inp.length) :
    denseForward ⟨nm, ty, ws.map some, bs.map some, ish, osh, act⟩
        (inp.map some) =
      (List.range (osh.getLastD 0)).map fun o =>
        some (bs.getD o 0 + ∑ i ∈ Finset.range (ish.getLastD 0),
          inp.getD i 0 * ws.getD (o * ish.getLastD 0 + i) 0) := by
  unfold denseForward
  refine List.map_congr_left fun o ho => ?_
  rw [List.mem_range] at ho
  rw [tGet_map_some bs o (lt_of_lt_of_le ho hb)]
  refine foldl_vAdd_some _ _ _ _ _ fun i hilt => ?_
  have hidx : o * ish.getLastD 0 + i < ws.length := by
    rw [hw]
    have h2 : o * ish.getLastD 0 + i < (o + 1) * ish.getLastD 0 := by
      rw [Nat.succ_mul]
      exact Nat.add_lt_add_left hilt _
    have h3 : (o + 1) * ish.getLastD 0 ≤ ish.getLastD 0 * osh.getLastD 0 := by
      rw [Nat.mul_comm]
      exact Nat.mul_le_mul_left _ ho
    exact lt_of_lt_of_le h2 h3
  rw [tGet_map_some inp i (lt_of_lt_of_le hilt hi), tGet_map_some ws _ hidx]
  rfl

/-- C2 witness: the spec's dense-correctness test — input `[1,2,3,4]`,
2×4 weights `[0.1 … 0.8]`, biases `[0.1, 0.1]`, linear activation, output
exactly `[3.1, 7.1]`. -/
theorem denseForward_formula_witness :
    denseForward exDenseLayer (exDenseInput.map some) =
      [some (31/10), some (71/10)] ∧
    forward idRealOps exDenseLayer (exDenseInput.map some) =
      Except.ok [some (31/10), some (71/10)] := by
  have h := denseForward_formula "dense_1" "dense" "linear" [1, 4] [1, 2]
    exDenseWeights exDenseBiases exDenseInput (by decide) (by decide) (by decide)
  have h1 : denseForward exDenseLayer (exDenseInput.map some) =
      [some (31/10), some (71/10)] := h.trans (by
    norm_num [exDenseBiases, exDenseWeights, exDenseInput, List.range_succ,
      Finset.sum_range_succ])
  refine ⟨h1, ?_⟩
  show Except.ok (applyActivation idRealOps "linear"
    (denseForward exDenseLayer (exDenseInput.map some))) = _
  rw [h1]
  rfl

/-- Every activation preserves the output length. -/
theorem applyActivation_length (ops : RealOps) (a : String) (d : List Val) :
    (applyActivation ops a d).length = d.length := by
  unfold applyActivation
  split_ifs <;> simp [softmax]

/-- `denseForward` always yields a vector of the declared trailing output
dimension. -/
theorem denseForward_length (L : NeuralLayerConfig) (input : List Val) :
    (denseForward L input).length = L.outputShape.getLastD 0 := by
  simp [denseForward]

/-- C3 counterexample: a dense layer with mismatched weight and bias lengths
does not fail — `forward` succeeds and returns an output (its entries
contaminated by the out-of-bounds reads). -/
theorem denseForward_shape_mismatch_cex :
    badDenseLayer.weights.length ≠
      badDenseLayer.inputShape.getLastD 0 * badDenseLayer.outputShape.getLastD 0 ∧
    badDenseLayer.biases.length ≠ badDenseLayer.outputShape.getLastD 0 ∧
    forward idRealOps badDenseLayer [some 1, some 2] = Except.ok [none, none] := by
  refine ⟨by decide, by decide, ?_⟩
  rfl

/-- C3 (amended): the dense forward pass performs no shape validation —
whatever the weight/bias lengths, `forward` on a dense layer succeeds and
returns an output of the declared trailing output dimension. -/
theorem denseForward_no_validation (ops : RealOps) (L : NeuralLayerConfig)
    (input : List Val) (h : L.type = "dense") :
    ∃ out, forward ops L input = Except.ok out ∧
      out.length = L.outputShape.getLastD 0 := by
  refine ⟨applyActivation ops L.activation (denseForward L input), ?_, ?_⟩
  · simp [forward, forwardRaw, h, Except.map]
  · rw [applyActivation_length, denseForward_length]

/-- C3 witness: the amended statement at the concrete ill-shaped layer. -/
theorem denseForward_no_validation_witness :
    ∃ out, forward idRealOps badDenseLayer [some 1, some 2] = Except.ok out ∧
      out.length = badDenseLayer.outputShape.getLastD 0 :=
  denseForward_no_validation idRealOps badDenseLayer [some 1, some 2] rfl

/-- Inserting an element all existing elements may precede appends it. -/
theorem stableInsert_of_all (le : α → α → Bool) (x : α) :
    ∀ (l : List α), (∀ y ∈ l, le y x = true) → stableInsert le x l = l ++ [x]
  | [], _ => rfl
  | y :: ys, h => by
      simp [stableInsert, h y (List.mem_cons_self y ys),
        stableInsert_of_all le x ys fun z hz => h z (List.mem_cons_of_mem y hz)]

/-- Stable insertion of an already-sorted run onto a compatible prefix is
concatenation. -/
theorem foldl_stableInsert_sorted (le : α → α → Bool) :
    ∀ (rest acc : List α),
      (∀ y ∈ acc, ∀ z ∈ rest, le y z = true) →
      rest.Pairwise (fun a b => le a b = true) →
      rest.foldl (fun acc x => stableInsert le x acc) acc = acc ++ rest
  | [], acc, _, _ => by simp
  | z :: rest, acc, hcross, hpair => by
      rw [List.foldl_cons,
        stableInsert_of_all le z acc fun y hy =>
          hcross y hy z (List.mem_cons_self z rest)]
      have hcross' : ∀ y ∈ acc ++ [z], ∀ w ∈ rest, le y w = true := by
        intro y hy w hw
        rcases List.mem_append.1 hy with h1 | h1
        · exact hcross y h1 w (List.mem_cons_of_mem z hw)
        · rw [List.mem_singleton.1 h1]
          exact (List.pairwise_cons.1 hpair).1 w hw
      rw [foldl_stableInsert_sorted le rest (acc ++ [z]) hcross'
        (List.pairwise_cons.1 hpair).2]
      simp

/-- A stable sort leaves an already-sorted list unchanged. -/
theorem stableSort_of_sorted (le : α → α → Bool) (l : List α)
    (h : l.Pairwise fun a b => le a b = true) : stableSort le l = l := by
  simpa [stableSort] using foldl_stableInsert_sorted le l [] (by simp) h

/-- C4 counterexample: the runner flattens shards in array order, not by
ascending shard index — a task listing the index-1 shard before the index-0
shard executes `layerCfgB` before `layerCfgA`, differing from the
index-sorted flattening, and permuting the array changes the layer order. -/
theorem loadShards_order_cex :
    loadShardsLayers [shardB, shardA] ≠ flattenShardsSortedSpec [shardB, shardA] ∧
    loadShardsLayers [shardB, shardA] ≠ loadShardsLayers [shardA, shardB] := by
  constructor <;> decide

/-- C4 (amended): the runner flattens every shard's layers in the order the
`shards` array lists them; this coincides with the shard-index-sorted
flattening exactly when the array is already sorted by ascending index. -/
theorem loadShards_sorted_agrees (shards : List ModelShard)
    (h : shards.Pairwise fun a b => a.index ≤ b.index) :
    loadShardsLayers shards = flattenShardsSortedSpec shards := by
  unfold flattenShardsSortedSpec loadShardsLayers
  rw [stableSort_of_sorted _ _ (h.imp fun hab => decide_eq_true hab)]

/-- C4 witness: the amended statement at a concrete index-sorted pair. -/
theorem loadShards_sorted_agrees_witness :
    loadShardsLayers [shardA, shardB] = flattenShardsSortedSpec [shardA, shardB] :=
  loadShards_sorted_agrees [shardA, shardB] (by decide)

/-- The notification loop calls every listener, in order, and logs each
outcome. -/
theorem notifyStateChange_eq_map (ls : List StateListener) (st : WidgetState) :
    notifyStateChange ls st = ls.map fun l => listenerLogEntry (l st) := by
  induction ls with
  | nil => rfl
  | cons l rest ih => simp [notifyStateChange, ih]

/-- C7: an actual state change takes effect and synchronously produces one
log entry per registered listener, in subscription order — each entry being
that listener's own outcome at the new state, so a throwing listener is
caught (logged) and every remaining listener is still notified. -/
theorem setState_notifies_all (s : CaptchaSession) (newState : WidgetState)
    (h : s.state ≠ newState) :
    setState s newState =
      ({ s with state := newState },
        s.stateListeners.map fun l => listenerLogEntry (l newState)) := by
  simp [setState, h, notifyStateChange_eq_map]

/-- C7 witness: three listeners, the middle one throwing — the state changes
and all three are notified, the exception only logged. -/
theorem setState_notifies_all_witness :
    setState sessionEx WidgetState.loading =
      ({ sessionEx with state := WidgetState.loading },
        [none, some "boom", none]) := by
  rw [setState_notifies_all sessionEx WidgetState.loading (by decide)]
  rfl

/-- Each 32-bit word takes four bytes. -/
theorem bytesToWords_length : ∀ (l : List ℕ), (bytesToWords l).length = l.length / 4
  | _ :: _ :: _ :: _ :: rest => by
      have := bytesToWords_length rest
      simp [bytesToWords, this]
      omega
  | [] => rfl
  | [_] => by simp [bytesToWords]
  | [_, _] => by simp [bytesToWords]
  | [_, _, _] => by simp [bytesToWords]

/-- C10: the decoded input tensor is a function of `inputData` alone — the
declared shape argument is never read, and the decoded length is the byte
length of the base64 payload divided by four, never validated against the
declared shape. -/
theorem decodeInput_shape_independent (data : String) (sh₁ sh₂ : List ℕ) :
    decodeInput data sh₁ = decodeInput data sh₂ ∧
    (∀ bytes, atobModel (stripDataPrefix data) = Except.ok bytes →
      decodeInput data sh₁ =
        (if bytes.length % 4 = 0
         then Except.ok ((bytesToWords bytes).map f32FromBits)
         else Except.error "RangeError") ∧
      ((bytesToWords bytes).map f32FromBits).length = bytes.length / 4) := by
  refine ⟨rfl, fun bytes hb => ⟨?_, ?_⟩⟩
  · simp only [decodeInput]
    rw [hb]
    rfl
  · simp [bytesToWords_length]

/-- A successful layer loop starting at index `i` reports
`(i+k+1)/total` for `k = 0 … layers.length - 1`, in order. -/
theorem execLayersLoop_reports (ops : RealOps) (total : ℕ) :
    ∀ (layers : List NeuralLayerConfig) (i : ℕ) (cur : List Val)
      (outs : List (List Val)) (reps : List ℚ),
      execLayersLoop ops total layers i cur = Except.ok (outs, reps) →
      reps = (List.range layers.length).map
        fun k => (((i + k : ℕ) : ℚ) + 1) / (total : ℚ) := by
  intro layers
  induction layers with
  | nil =>
      intro i cur outs reps h
      simp only [execLayersLoop, Except.ok.injEq, Prod.mk.injEq] at h
      simp [← h.2]
  | cons L rest ih =>
      intro i cur outs reps h
      rw [execLayersLoop] at h
      cases hF : forward ops L cur with
      | error err => rw [hF] at h; cases h
      | ok output =>
          rw [hF] at h
          dsimp only at h
          cases hR : execLayersLoop ops total rest (i + 1) output with
          | error err => rw [hR] at h; cases h
          | ok pr =>
              obtain ⟨outs', reps'⟩ := pr
              rw [hR] at h
              dsimp only at h
              simp only [Except.ok.injEq, Prod.mk.injEq] at h
              obtain ⟨-, hreps⟩ := h
              subst hreps
              rw [ih (i + 1) output outs' reps' hR]
              rw [List.length_cons, List.range_succ_eq_map, List.map_cons,
                List.map_map]
              congr 1
              refine List.map_congr_left fun k _ => ?_
              have h2 : i + 1 + k = i + (k + 1) := by omega
              simp only [Function.comp, h2]

/-- The progress fractions are strictly increasing. -/
theorem progressList_chain (N : ℕ) : (progressList N).Chain' (· < ·) := by
  cases N with
  | zero => simp [progressList]
  | succ n =>
      rw [progressList, List.chain'_map, List.chain'_range_succ]
      intro m hm
      have hN : (0 : ℚ) < (n + 1 : ℕ) := by positivity
      rw [div_lt_div_iff_of_pos_right hN]
      push_cast
      linarith

/-- Every reported fraction lies in `(0, 1]`. -/
theorem progressList_mem (N : ℕ) (r : ℚ) (h : r ∈ progressList N) :
    0 < r ∧ r ≤ 1 := by
  rw [progressList, List.mem_map] at h
  obtain ⟨i, hi, rfl⟩ := h
  rw [List.mem_range] at hi
  have hN : (0 : ℚ) < (N : ℚ) := by
    exact_mod_cast Nat.pos_of_ne_zero fun hz => by omega
  constructor
  · apply div_pos _ hN
    positivity
  · rw [div_le_one hN]
    exact_mod_cast Nat.succ_le_of_lt hi

/-- The last reported fraction of a nonempty execution is exactly 1. -/
theorem progressList_getLast (N : ℕ) (h : 1 ≤ N) :
    (progressList N).getLast? = some 1 := by
  obtain ⟨n, rfl⟩ : ∃ n, N = n + 1 := ⟨N - 1, by omega⟩
  rw [progressList, List.range_succ, List.map_append, List.map_cons,
    List.map_nil, List.getLast?_concat]
  have hN : ((n : ℚ) + 1) ≠ 0 := by positivity
  congr 1
  push_cast
  exact div_self hN

/-- C8: over an `N`-layer shard execution that completes, the reported
progress values are exactly `(i+1)/N` for `i = 0 … N-1`: strictly
increasing, each in `(0, 1]`, and ending at exactly 1 after the last
layer. -/
theorem executeShards_progress (ops : RealOps) (hashStr : String → String)
    (hashTensor : List Val → String) (e : ShardInferenceEngine)
    (task : ShardTask) (now : ℕ) (res : ShardExecutionResult)
    (h : ShardInferenceEngine.executeShards ops hashStr hashTensor e task now =
      Except.ok res) :
    res.progressReports = progressList (loadShardsLayers task.shards).length ∧
    res.progressReports.Chain' (· < ·) ∧
    (∀ r ∈ res.progressReports, 0 < r ∧ r ≤ 1) ∧
    (1 ≤ (loadShardsLayers task.shards).length →
      res.progressReports.getLast? = some 1) := by
  have hreps : res.progressReports =
      progressList (loadShardsLayers task.shards).length := by
    rw [ShardInferenceEngine.executeShards] at h
    simp only [ShardInferenceEngine.loadShards] at h
    cases hD : decodeInput task.inputData task.inputShape with
    | error err => rw [hD] at h; cases h
    | ok input =>
        rw [hD] at h
        dsimp only at h
        cases hL : execLayersLoop ops (loadShardsLayers task.shards).length
            (loadShardsLayers task.shards) 0 input with
        | error err => rw [hL] at h; cases h
        | ok pr =>
            obtain ⟨outs, reps⟩ := pr
            rw [hL] at h
            dsimp only at h
            simp only [Except.ok.injEq] at h
            rw [← h]
            have := execLayersLoop_reports ops
              (loadShardsLayers task.shards).length
              (loadShardsLayers task.shards) 0 input outs reps hL
            simpa [progressList] using this
  refine ⟨hreps, ?_, ?_, ?_⟩
  · rw [hreps]; exact progressList_chain _
  · rw [hreps]; exact fun r hr => progressList_mem _ r hr
  · rw [hreps]; exact fun hN => progressList_getLast _ hN

/-- C8 witness: the single-layer `task0` completes, reporting exactly
`[1]`. -/
theorem executeShards_progress_witness :
    ∃ res, ShardInferenceEngine.executeShards idRealOps (fun _ => "h")
        (fun _ => "t") ShardInferenceEngine.fresh task0 0 = Except.ok res ∧
      res.progressReports = [(1 : ℚ)] := by
  refine ⟨_, rfl, ?_⟩
  have h := (executeShards_progress idRealOps (fun _ => "h") (fun _ => "t")
    ShardInferenceEngine.fresh task0 0 _ rfl).1
  rw [h]
  norm_num [progressList, loadShardsLayers, task0, List.range_succ]

/-- If no poll in the list settles, the scan returns nothing. -/
theorem firstSettle_eq_none (env : WaitEnv) :
    ∀ (ts : List ℕ), (∀ t ∈ ts, pollCheck env t = none) →
      firstSettle env ts = none
  | [], _ => rfl
  | t :: ts, h => by
      rw [firstSettle, h t (List.mem_cons_self t ts)]
      exact firstSettle_eq_none env ts fun u hu => h u (List.mem_cons_of_mem t hu)

set_option maxRecDepth 4000 in
/-- C9 counterexample: a session whose remaining time-to-expiry is 0 when
waiting begins.  The claim's deadline would be 0, but the code's
`getTimeRemaining() || 60000` turns the falsy 0 into a 60000 ms timeout, and
the wait settles only at the first poll, 100 ms after the claimed deadline,
rejecting with `SESSION_EXPIRED` rather than the verification timeout. -/
theorem waitForVerification_deadline_cex :
    envZeroRemaining.remainingAtStart = 0 ∧
    timeoutDelay envZeroRemaining = 60000 ∧
    waitForVerificationOutcome envZeroRemaining =
      some (100, WaitOutcome.rejectedSessionExpired) := by
  refine ⟨rfl, rfl, ?_⟩
  rfl

/-- C9 (amended): when the remaining time-to-expiry `d` at the start of the
wait is nonzero, the timeout deadline equals `d` (a zero remaining time
falls back to 60000 ms); and if the session has not completed and not
entered the error state strictly before `d`, is not completed at `d`, and
`d` is not a multiple of the 100 ms poll interval, the wait rejects with
the verification timeout exactly at the deadline. -/
theorem waitForVerification_timeout (env : WaitEnv)
    (h0 : env.remainingAtStart ≠ 0)
    (h100 : ¬ (100 ∣ env.remainingAtStart))
    (hflags : ∀ t < env.remainingAtStart,
      env.completedAt t = false ∧ env.errorAt t = false)
    (hend : env.completedAt env.remainingAtStart = false) :
    timeoutDelay env = env.remainingAtStart ∧
    waitForVerificationOutcome env =
      some (env.remainingAtStart, WaitOutcome.rejectedVerificationTimeout) := by
  have hdelay : timeoutDelay env = env.remainingAtStart := by
    rw [timeoutDelay, if_neg h0]
  refine ⟨hdelay, ?_⟩
  rw [waitForVerificationOutcome, hdelay]
  have hpolls : ∀ t ∈ (List.range (env.remainingAtStart / 100)).map
      (fun k => 100 * (k + 1)), pollCheck env t = none := by
    intro t ht
    rw [List.mem_map] at ht
    obtain ⟨k, hk, rfl⟩ := ht
    rw [List.mem_range] at hk
    have hle : 100 * (k + 1) ≤ env.remainingAtStart := by
      have h1 : k + 1 ≤ env.remainingAtStart / 100 := hk
      calc 100 * (k + 1) ≤ 100 * (env.remainingAtStart / 100) :=
            Nat.mul_le_mul_left 100 h1
      _ ≤ env.remainingAtStart := Nat.mul_div_le env.remainingAtStart 100
    have hlt : 100 * (k + 1) < env.remainingAtStart := by
      rcases Nat.lt_or_ge (100 * (k + 1)) env.remainingAtStart with hlt | hge
      · exact hlt
      · exfalso
        exact h100 ⟨k + 1, le_antisymm hle hge ▸ rfl⟩
    obtain ⟨hc, he⟩ := hflags _ hlt
    rw [pollCheck, hc, he]
    simp [WaitEnv.expiredAt, Nat.not_le.2 hlt]
  rw [firstSettle_eq_none env _ hpolls, hend]
  rfl

/-- C9 witness: 150 ms to expiry, never completed, never in error — the wait
rejects with the verification timeout at exactly 150 ms. -/
theorem waitForVerification_timeout_witness :
    timeoutDelay envRemaining150 = envRemaining150.remainingAtStart ∧
    waitForVerificationOutcome envRemaining150 =
      some (envRemaining150.remainingAtStart,
        WaitOutcome.rejectedVerificationTimeout) :=
  waitForVerification_timeout envRemaining150 (by decide) (by decide)
    (fun t _ => ⟨rfl, rfl⟩) rfl

end PoUW
